import Mathlib

/-!
Shallow embedding of the binding-to-device mapping core of the StarSticks
repository (`src/gui/joystick_widget.py` and `src/core/binding_parser.py`):
the input-token parser `DualJoystickView.parse_input_string`, the slot
resolver and binding router `DualJoystickView.update_bindings`, the swap
toggle `DualJoystickView.swap_joystick_mapping`, the per-device sinks
`JoystickVisualization.set_button_binding` / `set_axis_binding`, and the
auxiliary parser `BindingParser.parse_joystick_input`.

Python strings are modelled as `List Char` after the ASCII `str.lower`
mapping; Python dicts as association lists; `int()` failure and the
`try/except` blocks of the source as an `Except` model alongside the pure
functions.
-/

namespace StarSticks

/-! ### Character and substring primitives (Python `str` operations) -/

/-- Model of Python `str.lower` (character-wise, ASCII). -/
def lowerL (l : List Char) : List Char := l.map Char.toLower

/-- Model of Python `str.find`: index of the first occurrence of `needle`
in `hay`, `none` when absent (Python returns `-1`). -/
def findSub (needle : List Char) : List Char → Option Nat
  | [] => if needle = [] then some 0 else none
  | c :: rest =>
    if needle.isPrefixOf (c :: rest) then some 0
    else (findSub needle rest).map (· + 1)

/-- The maximal run of decimal digits at the front of a string: models the
`while ... isdigit()` scan and the digit-collecting `for` loop of the source. -/
def scanDigits (l : List Char) : List Char := l.takeWhile Char.isDigit

/-- Numeric value of a digit string (Python `int` on an all-digit string). -/
def digitsVal (l : List Char) : Nat :=
  l.foldl (fun n c => 10 * n + (c.toNat - 48)) 0

/-- The characters of the literal `"js"`. -/
def jsL : List Char := ['j', 's']

/-- The characters of the literal `"button"`. -/
def buttonL : List Char := ['b', 'u', 't', 't', 'o', 'n']

/-! ### `DualJoystickView.parse_input_string` (joystick_widget.py 535-587) -/

/-- Result dictionary of `parse_input_string`:
`{'sc_js_number': ..., 'button': ..., 'axis': ...}`. -/
structure ParsedToken where
  sc_js_number : Option Nat
  button : Option Nat
  axis : Option String
deriving DecidableEq

/-- Slot extraction: find `"js"`, take the maximal digit run after it;
`int('')` raises and the `except` clause leaves the field `None`. -/
def slotOf (low : List Char) : Option Nat :=
  match findSub jsL low with
  | none => none
  | some i =>
    let run := scanDigits (low.drop (i + 2))
    if run = [] then none else some (digitsVal run)

/-- Button extraction: find `"button"`, collect the digit run after it;
the field is set only when at least one digit was collected. -/
def buttonOf (low : List Char) : Option Nat :=
  match findSub buttonL low with
  | none => none
  | some i =>
    let run := scanDigits (low.drop (i + 6))
    if run = [] then none else some (digitsVal run)

/-- The axis-name candidates in source order:
`['rotx', 'roty', 'rotz', 'x', 'y', 'z']` (longer names first). -/
def axisNames : List (List Char) :=
  [['r', 'o', 't', 'x'], ['r', 'o', 't', 'y'], ['r', 'o', 't', 'z'],
   ['x'], ['y'], ['z']]

/-- The per-name test of the source:
`if f'_{axis}' in input_lower or input_lower.endswith(axis)`. -/
def axisHit (low a : List Char) : Bool :=
  (findSub ('_' :: a) low).isSome || a.isSuffixOf low

/-- Axis extraction: first name in `axisNames` whose test succeeds. -/
def axisOf (low : List Char) : Option String :=
  (axisNames.find? (fun a => axisHit low a)).map fun a => String.mk a

/-- Embedding of `DualJoystickView.parse_input_string`. -/
def parse_input_string (s : String) : ParsedToken :=
  if s = "" then ⟨none, none, none⟩
  else
    let low := lowerL s.toList
    ⟨slotOf low, buttonOf low, axisOf low⟩

/-! ### Exception model of the same function

The source wraps each `int(...)` conversion in
`try: ... except (ValueError, IndexError): pass`.  Here the conversion is a
fallible operation in `Except`, and the `except` clauses are explicit
recovery, exactly as in the source. -/

/-- Python exception kinds caught by the source. -/
inductive PyExc where
  | valueError
  | indexError
deriving DecidableEq

/-- Model of Python `int` on a string: succeeds exactly on a non-empty
all-digit string (the only shapes reaching it in this code), raises
`ValueError` otherwise. -/
def pyIntE (l : List Char) : Except PyExc Nat :=
  if l ≠ [] ∧ l.all Char.isDigit then .ok (digitsVal l) else .error .valueError

/-- Slot extraction with the source's `try/except` made explicit. -/
def slotOfE (low : List Char) : Except PyExc (Option Nat) :=
  match findSub jsL low with
  | none => .ok none
  | some i =>
    match pyIntE (scanDigits (low.drop (i + 2))) with
    | .ok n => .ok (some n)
    | .error .valueError => .ok none
    | .error .indexError => .ok none

/-- Button extraction with the source's `try/except` made explicit; the
source only calls `int` after checking the digit run is non-empty. -/
def buttonOfE (low : List Char) : Except PyExc (Option Nat) :=
  match findSub buttonL low with
  | none => .ok none
  | some i =>
    let run := scanDigits (low.drop (i + 6))
    if run = [] then .ok none
    else
      match pyIntE run with
      | .ok n => .ok (some n)
      | .error _ => .ok none

/-- Exception-model embedding of `parse_input_string`. -/
def parse_input_stringE (s : String) : Except PyExc ParsedToken :=
  if s = "" then .ok ⟨none, none, none⟩
  else
    let low := lowerL s.toList
    do
      let slot ← slotOfE low
      let btn ← buttonOfE low
      pure ⟨slot, btn, axisOf low⟩

/-! ### `BindingParser.parse_joystick_input` (binding_parser.py 164-222) -/

/-- Result dictionary of `parse_joystick_input`. -/
structure JoyParsed where
  device : Option Nat
  button : Option Nat
  axis : Option String
  hat : Option String
deriving DecidableEq

/-- Model of Python substring membership `needle in hay`. -/
def containsSub (needle hay : List Char) : Bool := (findSub needle hay).isSome

/-- Embedding of `BindingParser.parse_joystick_input`; the axis and hat
fields store the raw input string when their keyword test fires. -/
def parse_joystick_input (s : String) : JoyParsed :=
  if s = "" then ⟨none, none, none, none⟩
  else
    let low := lowerL s.toList
    let ax :=
      if containsSub ['a', 'x', 'i', 's'] low || containsSub ['x'] low ||
          containsSub ['y'] low || containsSub ['z'] low then some s else none
    let ht :=
      if containsSub ['h', 'a', 't'] low || containsSub ['p', 'o', 'v'] low
        then some s else none
    ⟨slotOf low, buttonOf low, ax, ht⟩

/-- Exception-model embedding of `parse_joystick_input`. -/
def parse_joystick_inputE (s : String) : Except PyExc JoyParsed :=
  if s = "" then .ok ⟨none, none, none, none⟩
  else
    let low := lowerL s.toList
    do
      let dev ← slotOfE low
      let btn ← buttonOfE low
      let ax :=
        if containsSub ['a', 'x', 'i', 's'] low || containsSub ['x'] low ||
            containsSub ['y'] low || containsSub ['z'] low then some s else none
      let ht :=
        if containsSub ['h', 'a', 't'] low || containsSub ['p', 'o', 'v'] low
          then some s else none
      pure ⟨dev, btn, ax, ht⟩

/-! ### Display formatting (`JoystickVisualization.format_action_name`) -/

/-- Worker for `pyReplace`, structurally recursive on a fuel argument that
bounds the number of characters still to examine. -/
def pyReplaceFuel (pat rep : List Char) : Nat → List Char → List Char
  | _, [] => []
  | 0, l => l
  | fuel + 1, c :: rest =>
    if pat.isPrefixOf (c :: rest) ∧ pat ≠ [] then
      rep ++ pyReplaceFuel pat rep fuel (rest.drop (pat.length - 1))
    else c :: pyReplaceFuel pat rep fuel rest

/-- Model of Python `str.replace`: replace every non-overlapping occurrence
of `pat` left to right (here `pat` is always non-empty); each step consumes
at least one character, so the string's length is enough fuel. -/
def pyReplace (pat rep l : List Char) : List Char :=
  pyReplaceFuel pat rep l.length l

/-- Model of Python `str.title` (ASCII): uppercase a letter that follows a
non-letter, lowercase a letter that follows a letter. -/
def pyTitle (prevCased : Bool) : List Char → List Char
  | [] => []
  | c :: rest =>
    if c.isAlpha then
      (if prevCased then c.toLower else c.toUpper) :: pyTitle true rest
    else c :: pyTitle false rest

/-- Embedding of `JoystickVisualization.format_action_name`
(joystick_widget.py 278-301). -/
def format_action_name (action : String) : String :=
  let a := pyReplace ['v', '_'] [] action.toList
  let a := pyReplace "spaceship_".toList [] a
  let a := pyReplace ['_'] [' '] a
  let a := pyTitle false a
  let a := if 30 < a.length then a.take 27 ++ ['.', '.', '.'] else a
  String.mk a

/-! ### Per-device visualization state (`JoystickVisualization`)

Only the binding-relevant state is modelled: `button_widgets` has keys
`1 .. num_buttons`, each holding an optional binding action;
`axis_widgets` has keys `0 .. num_axes - 1`, each holding a binding label
text (empty when unbound). -/

/-- Binding-relevant state of one `JoystickVisualization`. -/
structure Viz where
  joystick_name : String
  joystick_id : Nat
  num_buttons : Nat
  num_axes : Nat
  buttons : Nat → Option String
  axes : Nat → String

/-- Pointwise function update used to model assignment into a widget map. -/
def updFn {α : Type} (f : Nat → α) (k : Nat) (v : α) : Nat → α :=
  fun n => if n = k then v else f n

/-- Embedding of `JoystickVisualization.set_button_binding`: assign only
when the 1-based button number is an existing widget key. -/
def set_button_binding (vz : Viz) (button_number : Nat) (action : String) :
    Viz :=
  if 1 ≤ button_number ∧ button_number ≤ vz.num_buttons then
    { vz with
      buttons := updFn vz.buttons button_number
        (some (format_action_name action)) }
  else vz

/-- Embedding of `JoystickVisualization.set_axis_binding`: assign only when
the 0-based axis index is an existing widget key. -/
def set_axis_binding (vz : Viz) (axis_number : Nat) (action : String) : Viz :=
  if axis_number < vz.num_axes then
    { vz with axes := updFn vz.axes axis_number (format_action_name action) }
  else vz

/-- Embedding of `JoystickVisualization.clear_all_bindings`. -/
def clear_all_bindings (vz : Viz) : Viz :=
  { vz with buttons := fun _ => none, axes := fun _ => "" }

/-- A freshly constructed `JoystickVisualization`: all bindings absent. -/
def mkViz (name : String) (id buttons axes : Nat) : Viz :=
  ⟨name, id, buttons, axes, fun _ => none, fun _ => ""⟩

/-! ### `DualJoystickView` state and the slot resolver / binding router -/

/-- One record handed to `update_bindings`: an
`{'action': ..., 'input': ...}` dictionary from the binding parser. -/
structure Binding where
  action : String
  input : String

/-- Binding-relevant state of `DualJoystickView`: `stick_visualizations`
(a dict from pygame device id to visualization, modelled as an association
list) and the user-toggled `mapping_swapped` flag. -/
structure DualView where
  sticks : List (Nat × Viz)
  mapping_swapped : Bool

/-- Model of Python `dict.get`. -/
def dictGet {α : Type} (k : Nat) : List (Nat × α) → Option α
  | [] => none
  | (k', v) :: rest => if k' = k then some v else dictGet k rest

/-- Update the entry of key `key` (dict assignment to an existing key). -/
def updateAssoc : List (Nat × Viz) → Nat → (Viz → Viz) → List (Nat × Viz)
  | [], _, _ => []
  | (k, vz) :: rest, key, f =>
    if k = key then (k, f vz) :: rest
    else (k, vz) :: updateAssoc rest key f

/-- Embedding of `DualJoystickView.swap_joystick_mapping`
(joystick_widget.py 441-444). -/
def swap_joystick_mapping (v : DualView) : DualView :=
  { v with mapping_swapped := !v.mapping_swapped }

/-- Device info handed to `set_joysticks` by the detection collaborator. -/
structure DeviceInfo where
  name : String
  id : Nat
  buttons : Nat
  axes : Nat

/-- Embedding of `DualJoystickView.set_joysticks`: rebuild
`stick_visualizations` with a fresh visualization per device
(left/right display references are presentation-only and not modelled). -/
def set_joysticks (v : DualView) (joys : List DeviceInfo) : DualView :=
  { v with sticks := joys.map fun j => (j.id, mkViz j.name j.id j.buttons j.axes) }

/-- The `sorted(self.stick_visualizations.keys())` sequence, reversed when
the swap flag is set and at least two devices are live
(joystick_widget.py 461-468). -/
def availIds (sticks : List (Nat × Viz)) (swapped : Bool) : List Nat :=
  let ids := List.insertionSort (· ≤ ·) (sticks.map Prod.fst)
  if swapped = true ∧ 2 ≤ ids.length then ids.reverse else ids

/-- The `for i, pygame_id in enumerate(...)` loop body: slot `i + 1` maps
to the i-th available id. -/
def slotEntries : Nat → List Nat → List (Nat × Nat)
  | _, [] => []
  | i, x :: t => (i + 1, x) :: slotEntries (i + 1) t

/-- The `sc_to_pygame_map` dict built in `update_bindings`
(joystick_widget.py 470-474): the slot resolver's output. -/
def scToPygameMap (sticks : List (Nat × Viz)) (swapped : Bool) :
    List (Nat × Nat) :=
  slotEntries 0 (availIds sticks swapped)

/-- Mapping to indices of the axis widgets:
`{'x': 0, 'y': 1, 'z': 2, 'rotx': 3, 'roty': 4, 'rotz': 5}`. -/
def axis_map (ax : String) : Option Nat :=
  if ax = "x" then some 0
  else if ax = "y" then some 1
  else if ax = "z" then some 2
  else if ax = "rotx" then some 3
  else if ax = "roty" then some 4
  else if ax = "rotz" then some 5
  else none

/-- One iteration of the binding loop of `update_bindings`
(joystick_widget.py 484-524): parse the record, look the slot up in the
resolver map, fetch the visualization, and dispatch to the button path
(when a button ordinal was parsed) or else the axis path. -/
def applyBinding (m : List (Nat × Nat)) (st : DualView) (b : Binding) :
    DualView :=
  let parsed := parse_input_string b.input
  match parsed.sc_js_number with
  | none => st
  | some sc =>
    match dictGet sc m with
    | none => st
    | some pid =>
      match dictGet pid st.sticks with
      | none => st
      | some _ =>
        match parsed.button with
        | some bn =>
          { st with
            sticks := updateAssoc st.sticks pid
              (fun vz => set_button_binding vz bn b.action) }
        | none =>
          match parsed.axis with
          | none => st
          | some ax =>
            match axis_map ax with
            | none => st
            | some ai =>
              { st with
                sticks := updateAssoc st.sticks pid
                  (fun vz => set_axis_binding vz ai b.action) }

/-- The initial clearing pass: `clear_all_bindings` on every visualization. -/
def clearedSticks (sticks : List (Nat × Viz)) : List (Nat × Viz) :=
  sticks.map fun p => (p.1, clear_all_bindings p.2)

/-- Embedding of `DualJoystickView.update_bindings`
(joystick_widget.py 446-533): clear every visualization, build the slot
resolver map, then fold the binding loop over the records. -/
def update_bindings (v : DualView) (bindings : List Binding) : DualView :=
  let st0 : DualView := { v with sticks := clearedSticks v.sticks }
  let m := scToPygameMap st0.sticks st0.mapping_swapped
  bindings.foldl (applyBinding m) st0

/-- Increment of the `bindings_per_device` tally dict
(joystick_widget.py 506-509). -/
def tallyInc : List (Nat × Nat) → Nat → List (Nat × Nat)
  | [], k => [(k, 1)]
  | (k', c) :: rest, k =>
    if k' = k then (k', c + 1) :: rest else (k', c) :: tallyInc rest k

/-- A record reaches the tally exactly when its slot parses, the slot is in
the resolver map, and the mapped device has a visualization; returns the
slot number that is tallied. -/
def talliedSlot (m : List (Nat × Nat)) (sticks : List (Nat × Viz))
    (b : Binding) : Option Nat :=
  match (parse_input_string b.input).sc_js_number with
  | none => none
  | some sc =>
    match dictGet sc m with
    | none => none
    | some pid =>
      match dictGet pid sticks with
      | none => none
      | some _ => some sc

/-- The `bindings_per_device` summary dict computed by `update_bindings`
for its console report; the routed state aside, this is the only aggregate
the routing pass computes. -/
def bindings_per_device (v : DualView) (bindings : List Binding) :
    List (Nat × Nat) :=
  let st0 := clearedSticks v.sticks
  let m := scToPygameMap st0 v.mapping_swapped
  bindings.foldl
    (fun t b =>
      match talliedSlot m st0 b with
      | some sc => tallyInc t sc
      | none => t) []

/-! ### Properties of the substring search and the digit scan -/

theorem findSub_some {p l : List Char} {i : Nat} (h : findSub p l = some i) :
    p.isPrefixOf (l.drop i) = true ∧
      ∀ j, j < i → p.isPrefixOf (l.drop j) = false := by
  induction l generalizing i with
  | nil =>
    unfold findSub at h
    split at h
    · rename_i hp
      injection h with h
      subst h
      subst hp
      exact ⟨rfl, fun j hj => absurd hj (Nat.not_lt_zero j)⟩
    · exact Option.noConfusion h
  | cons c rest ih =>
    unfold findSub at h
    split at h
    · rename_i hpre
      injection h with h
      subst h
      exact ⟨hpre, fun j hj => absurd hj (Nat.not_lt_zero j)⟩
    · rename_i hpre
      rw [Bool.not_eq_true] at hpre
      rcases Option.map_eq_some'.mp h with ⟨i', hi', rfl⟩
      rcases ih hi' with ⟨h1, h2⟩
      refine ⟨by simpa using h1, ?_⟩
      intro j hj
      cases j with
      | zero => simpa using hpre
      | succ j' => simpa using h2 j' (by omega)

theorem findSub_none {p l : List Char} (h : findSub p l = none) :
    ∀ j, p.isPrefixOf (l.drop j) = false := by
  induction l with
  | nil =>
    intro j
    unfold findSub at h
    split at h
    · exact Option.noConfusion h
    · rename_i hp
      rw [List.drop_nil]
      cases p with
      | nil => exact absurd rfl hp
      | cons a t => rfl
  | cons c rest ih =>
    intro j
    unfold findSub at h
    split at h
    · exact Option.noConfusion h
    · rename_i hpre
      rw [Bool.not_eq_true] at hpre
      have h' : findSub p rest = none := Option.map_eq_none'.mp h
      cases j with
      | zero => simpa using hpre
      | succ j' => simpa using ih h' j'

theorem findSub_eq_some_of {p l : List Char} {i : Nat}
    (hocc : p.isPrefixOf (l.drop i) = true)
    (hmin : ∀ j, j < i → p.isPrefixOf (l.drop j) = false) :
    findSub p l = some i := by
  cases hx : findSub p l with
  | none => exact absurd hocc (by simp [findSub_none hx i])
  | some k =>
    rcases findSub_some hx with ⟨h1, h2⟩
    rcases Nat.lt_trichotomy k i with hlt | heq | hgt
    · exact absurd h1 (by simp [hmin k hlt])
    · rw [heq]
    · exact absurd hocc (by simp [h2 i hgt])

theorem findSub_eq_none_of {p l : List Char}
    (h : ∀ j, p.isPrefixOf (l.drop j) = false) : findSub p l = none := by
  cases hx : findSub p l with
  | none => rfl
  | some k => exact absurd (findSub_some hx).1 (by simp [h k])

theorem findSub_isSome_iff {p l : List Char} :
    (findSub p l).isSome = true ↔ ∃ i, p.isPrefixOf (l.drop i) = true := by
  constructor
  · intro h
    rcases Option.isSome_iff_exists.mp h with ⟨k, hk⟩
    exact ⟨k, (findSub_some hk).1⟩
  · rintro ⟨i, hi⟩
    cases hx : findSub p l with
    | none => exact absurd hi (by simp [findSub_none hx i])
    | some k => rfl

theorem scanDigits_spec {r t : List Char} (hr : ∀ c ∈ r, c.isDigit = true)
    (ht : ∀ c, t.head? = some c → c.isDigit = false) :
    scanDigits (r ++ t) = r := by
  unfold scanDigits
  rw [List.takeWhile_append_of_pos hr]
  cases t with
  | nil => simp
  | cons c t' =>
    rw [List.takeWhile_cons_of_neg]
    · simp
    · simp [ht c rfl]

theorem scanDigits_all_digits {l : List Char} :
    ∀ c ∈ scanDigits l, c.isDigit = true := by
  intro c hc
  exact List.mem_takeWhile_imp hc

/-! ### Reduction helpers for the parser -/

theorem parse_slot_eq (s : String) :
    (parse_input_string s).sc_js_number = slotOf (lowerL s.toList) := by
  by_cases hs : s = ""
  · subst hs; decide
  · rw [parse_input_string, if_neg hs]

theorem parse_button_eq (s : String) :
    (parse_input_string s).button = buttonOf (lowerL s.toList) := by
  by_cases hs : s = ""
  · subst hs; decide
  · rw [parse_input_string, if_neg hs]

theorem parse_axis_eq (s : String) :
    (parse_input_string s).axis = axisOf (lowerL s.toList) := by
  by_cases hs : s = ""
  · subst hs; decide
  · rw [parse_input_string, if_neg hs]

theorem slotOf_eq_of_findSub {low : List Char} {i : Nat}
    (h : findSub jsL low = some i) :
    slotOf low =
      if scanDigits (low.drop (i + 2)) = [] then none
      else some (digitsVal (scanDigits (low.drop (i + 2)))) := by
  unfold slotOf
  rw [h]

/-- C5: for every token whose first case-insensitive occurrence of `"js"`
is immediately followed by a maximal digit run `r` (the rest `t` starting
with a non-digit), the parser yields slot `digitsVal r` when `r` is
non-empty and slot absent when it is empty; when `"js"` does not occur at
all, the slot is absent.  The spec's example `"js12_button3"` yields slot
12 and button 3. -/
theorem parse_slot_characterization :
    (∀ (s : String) (i : Nat) (r t : List Char),
        jsL.isPrefixOf ((lowerL s.toList).drop i) = true →
        (∀ j, j < i → jsL.isPrefixOf ((lowerL s.toList).drop j) = false) →
        (lowerL s.toList).drop (i + 2) = r ++ t →
        (∀ c ∈ r, c.isDigit = true) →
        (∀ c, t.head? = some c → c.isDigit = false) →
        (parse_input_string s).sc_js_number =
          if r = [] then none else some (digitsVal r)) ∧
    (∀ s : String,
        (∀ j, jsL.isPrefixOf ((lowerL s.toList).drop j) = false) →
        (parse_input_string s).sc_js_number = none) ∧
    (parse_input_string "js12_button3").sc_js_number = some 12 ∧
    (parse_input_string "js12_button3").button = some 3 := by
  refine ⟨?_, ?_, by decide, by decide⟩
  · intro s i r t hocc hmin hsplit hr ht
    rw [parse_slot_eq,
      slotOf_eq_of_findSub (findSub_eq_some_of hocc hmin), hsplit,
      scanDigits_spec hr ht]
  · intro s h
    rw [parse_slot_eq]
    unfold slotOf
    rw [findSub_eq_none_of h]

/-- C5 witness: the characterization applied at `"js12_button3"` with the
occurrence at index 0, digit run `"12"` and rest `"_button3"`. -/
theorem parse_slot_characterization_witness :
    (parse_input_string "js12_button3").sc_js_number = some 12 := by
  have h := parse_slot_characterization.1 "js12_button3" 0 ['1', '2']
    "_button3".toList (by decide) (fun j hj => absurd hj (Nat.not_lt_zero j))
    (by decide) (by decide)
    (fun c hc => by injection hc with hc; subst hc; rfl)
  exact h.trans (by decide)

/-! ### C6: totality of the parsers in the exception model -/

theorem pyIntE_scanDigits (l : List Char) :
    pyIntE (scanDigits l) =
      if scanDigits l = [] then Except.error PyExc.valueError
      else Except.ok (digitsVal (scanDigits l)) := by
  unfold pyIntE
  by_cases h : scanDigits l = []
  · rw [if_pos h, if_neg]
    intro hc
    exact hc.1 h
  · rw [if_neg h, if_pos]
    exact ⟨h, List.all_eq_true.mpr fun c hc => scanDigits_all_digits c hc⟩

theorem slotOfE_eq (low : List Char) : slotOfE low = Except.ok (slotOf low) := by
  cases hx : findSub jsL low with
  | none => simp only [slotOfE, slotOf, hx]
  | some i =>
    simp only [slotOfE, slotOf, hx]
    rw [pyIntE_scanDigits]
    by_cases h : scanDigits (low.drop (i + 2)) = []
    · rw [if_pos h, if_pos h]
    · rw [if_neg h, if_neg h]

theorem buttonOfE_eq (low : List Char) :
    buttonOfE low = Except.ok (buttonOf low) := by
  cases hx : findSub buttonL low with
  | none => simp only [buttonOfE, buttonOf, hx]
  | some i =>
    simp only [buttonOfE, buttonOf, hx]
    by_cases h : scanDigits (low.drop (i + 6)) = []
    · rw [if_pos h, if_pos h]
    · rw [if_neg h, if_neg h, pyIntE_scanDigits, if_neg h]

/-- C6: both parsers are total in the exception model: for every input
string, including the empty and arbitrarily malformed ones, the
`try/except`-faithful embedding returns `ok` of the pure result and never
propagates an exception. -/
theorem parse_total_no_exception :
    (∀ s : String, parse_input_stringE s = Except.ok (parse_input_string s)) ∧
    (∀ s : String,
      parse_joystick_inputE s = Except.ok (parse_joystick_input s)) := by
  constructor
  · intro s
    by_cases hs : s = ""
    · subst hs; rfl
    · rw [parse_input_stringE, parse_input_string, if_neg hs, if_neg hs]
      simp only [slotOfE_eq, buttonOfE_eq]
      rfl
  · intro s
    by_cases hs : s = ""
    · subst hs; rfl
    · rw [parse_joystick_inputE, parse_joystick_input, if_neg hs, if_neg hs]
      simp only [slotOfE_eq, buttonOfE_eq]
      rfl


/-! ### C2: axis-name matching -/

/-- C2 counterexample: the source matches `'_' + name` as a substring
anywhere, not only as a suffix: on `"js1_x_foo"` the parser assigns axis
`"x"` although no axis name occurs as a trailing suffix of the token, nor
as a suffix immediately preceded by an underscore. -/
theorem parse_axis_counterexample :
    (parse_input_string "js1_x_foo").axis = some "x" ∧
    (axisNames.all fun a =>
      (!(a.isSuffixOf (lowerL "js1_x_foo".toList)) &&
        !(('_' :: a).isSuffixOf (lowerL "js1_x_foo".toList)))) = true := by
  decide

/-- The condition the source actually implements, stated declaratively:
`'_' + name` occurs anywhere in the lowered token, or `name` is a trailing
suffix of it. -/
def axisHitSpec (low a : List Char) : Prop :=
  (∃ i, ('_' :: a).isPrefixOf (low.drop i) = true) ∨ a.isSuffixOf low = true

theorem axisHit_iff {low a : List Char} :
    axisHit low a = true ↔ axisHitSpec low a := by
  unfold axisHit axisHitSpec
  rw [Bool.or_eq_true, findSub_isSome_iff]

theorem find?_first {α : Type} (p : α → Bool) :
    ∀ (l : List α) (a : α), l.find? p = some a ↔
      ∃ k : Nat, l[k]? = some a ∧ p a = true ∧
        ∀ (j : Nat) (b : α), j < k → l[j]? = some b → p b = false := by
  intro l
  induction l with
  | nil => intro a; simp
  | cons x t ih =>
    intro a
    cases hx : p x with
    | true =>
      rw [List.find?_cons_of_pos _ hx]
      constructor
      · intro h
        injection h with h
        subst h
        exact ⟨0, by simp, hx, fun j b hj => absurd hj (Nat.not_lt_zero j)⟩
      · rintro ⟨k, hk, hpa, hmin⟩
        cases k with
        | zero => simp at hk; subst hk; rfl
        | succ k' =>
          have := hmin 0 x (Nat.succ_pos k') (by simp)
          rw [hx] at this
          exact Bool.noConfusion this
    | false =>
      rw [List.find?_cons_of_neg _ (by simp [hx])]
      rw [ih]
      constructor
      · rintro ⟨k, hk, hpa, hmin⟩
        refine ⟨k + 1, by simpa using hk, hpa, ?_⟩
        intro j b hj hjb
        cases j with
        | zero => simp at hjb; subst hjb; exact hx
        | succ j' => exact hmin j' b (by omega) (by simpa using hjb)
      · rintro ⟨k, hk, hpa, hmin⟩
        cases k with
        | zero =>
          simp at hk
          subst hk
          rw [hpa] at hx
          exact Bool.noConfusion hx
        | succ k' =>
          exact ⟨k', by simpa using hk, hpa,
            fun j b hj hjb => hmin (j + 1) b (by omega) (by simpa using hjb)⟩

/-- C2 amended: the parser tests the axis names in the fixed priority
order `rotx, roty, rotz, x, y, z` and assigns a name if and only if it is
the first in that order for which `'_' + name` occurs anywhere in the
lowered token or the name is a trailing suffix of it (the source's
in-operator matches the underscored name anywhere, not only as a suffix);
in particular `parse("js1_rotx")` yields axis `"rotx"`, not `"x"`. -/
theorem parse_axis_priority :
    (∀ (s : String) (a : List Char),
        (parse_input_string s).axis = some (String.mk a) ↔
          ∃ k : Nat, axisNames[k]? = some a ∧
            axisHitSpec (lowerL s.toList) a ∧
            ∀ (j : Nat) (b : List Char), j < k → axisNames[j]? = some b →
              ¬ axisHitSpec (lowerL s.toList) b) ∧
    (parse_input_string "js1_rotx").axis = some "rotx" := by
  refine ⟨?_, by decide⟩
  intro s a
  rw [parse_axis_eq]
  unfold axisOf
  constructor
  · intro h
    rcases Option.map_eq_some'.mp h with ⟨a', ha', hmk⟩
    have haa : a' = a := by
      have := congrArg String.toList hmk
      simpa using this
    subst haa
    rcases (find?_first _ axisNames a').mp ha' with ⟨k, hk, hpa, hmin⟩
    refine ⟨k, hk, axisHit_iff.mp hpa, fun j b hj hjb hspec => ?_⟩
    have h1 := hmin j b hj hjb
    rw [axisHit_iff.mpr hspec] at h1
    exact Bool.noConfusion h1
  · rintro ⟨k, hk, hhit, hmin⟩
    have : axisNames.find? (fun a => axisHit (lowerL s.toList) a) = some a := by
      rw [find?_first]
      refine ⟨k, hk, axisHit_iff.mpr hhit, ?_⟩
      intro j b hj hjb
      rw [Bool.eq_false_iff]
      intro hb
      exact hmin j b hj hjb (axisHit_iff.mp hb)
    rw [this, Option.map_some']

/-- C2 witness: the amended characterization applied at `"js1_rotx"` with
name `"rotx"` at priority index 0, hit by the underscored occurrence at
index 3. -/
theorem parse_axis_priority_witness :
    (parse_input_string "js1_rotx").axis = some (String.mk "rotx".toList) := by
  exact (parse_axis_priority.1 "js1_rotx" "rotx".toList).mpr
    ⟨0, by decide, Or.inl ⟨3, by decide⟩,
      fun j b hj => absurd hj (Nat.not_lt_zero j)⟩

/-! ### C3: button and axis fields of one parsed token -/

/-- C3 counterexample: button ordinal and axis name are not mutually
exclusive in the parser's output: on `"js1_button2x"` both fields are
populated. -/
theorem parse_mutual_exclusion_counterexample :
    (parse_input_string "js1_button2x").button = some 2 ∧
    (parse_input_string "js1_button2x").axis = some "x" := by
  decide


/-! ### Association-list and visualization-state lemmas -/

theorem dictGet_updateAssoc_eq (l : List (Nat × Viz)) (k : Nat)
    (f : Viz → Viz) :
    dictGet k (updateAssoc l k f) = (dictGet k l).map f := by
  induction l with
  | nil => rfl
  | cons p rest ih =>
    obtain ⟨q, v⟩ := p
    by_cases h : q = k
    · subst h
      simp [updateAssoc, dictGet]
    · simp [updateAssoc, dictGet, h, ih]

theorem dictGet_updateAssoc_ne (l : List (Nat × Viz)) {k q : Nat}
    (h : q ≠ k) (f : Viz → Viz) :
    dictGet q (updateAssoc l k f) = dictGet q l := by
  induction l with
  | nil => rfl
  | cons p rest ih =>
    obtain ⟨w, v⟩ := p
    by_cases h1 : w = k
    · subst h1
      have hwq : ¬ w = q := fun hh => h hh.symm
      simp [updateAssoc, dictGet, hwq]
    · simp [updateAssoc, dictGet, h1, ih]

theorem updateAssoc_id {l : List (Nat × Viz)} {k : Nat} {f : Viz → Viz}
    (h : ∀ vz, dictGet k l = some vz → f vz = vz) :
    updateAssoc l k f = l := by
  induction l with
  | nil => rfl
  | cons p rest ih =>
    obtain ⟨q, v⟩ := p
    by_cases h1 : q = k
    · subst h1
      have : f v = v := h v (by simp [dictGet])
      simp [updateAssoc, this]
    · have := ih fun vz hvz => h vz (by simpa [dictGet, h1] using hvz)
      simp [updateAssoc, h1, this]

theorem dictGet_clearedSticks (l : List (Nat × Viz)) (q : Nat) :
    dictGet q (clearedSticks l) = (dictGet q l).map clear_all_bindings := by
  induction l with
  | nil => rfl
  | cons p rest ih =>
    obtain ⟨w, v⟩ := p
    by_cases h : w = q
    · simp [clearedSticks, dictGet, h]
    · simpa [clearedSticks, dictGet, h] using ih

theorem set_button_binding_axes (vz : Viz) (bn : Nat) (a : String) :
    (set_button_binding vz bn a).axes = vz.axes := by
  unfold set_button_binding
  split <;> rfl

theorem set_axis_binding_buttons (vz : Viz) (ai : Nat) (a : String) :
    (set_axis_binding vz ai a).buttons = vz.buttons := by
  unfold set_axis_binding
  split <;> rfl

/-- The widget-shape projection: button and axis counts of one device. -/
def vizProj (vz : Viz) : Nat × Nat := (vz.num_buttons, vz.num_axes)

theorem vizProj_set_button (vz : Viz) (bn : Nat) (a : String) :
    vizProj (set_button_binding vz bn a) = vizProj vz := by
  unfold set_button_binding vizProj
  split <;> rfl

theorem vizProj_set_axis (vz : Viz) (ai : Nat) (a : String) :
    vizProj (set_axis_binding vz ai a) = vizProj vz := by
  unfold set_axis_binding vizProj
  split <;> rfl

theorem clear_of_set_button (vz : Viz) (bn : Nat) (a : String) :
    clear_all_bindings (set_button_binding vz bn a) = clear_all_bindings vz := by
  unfold set_button_binding clear_all_bindings
  split <;> rfl

theorem clear_of_set_axis (vz : Viz) (ai : Nat) (a : String) :
    clear_all_bindings (set_axis_binding vz ai a) = clear_all_bindings vz := by
  unfold set_axis_binding clear_all_bindings
  split <;> rfl

theorem set_button_binding_noop {vz : Viz} {bn : Nat} (a : String)
    (h : vz.num_buttons < bn) : set_button_binding vz bn a = vz := by
  unfold set_button_binding
  rw [if_neg (by omega)]

theorem set_axis_binding_noop {vz : Viz} {ai : Nat} (a : String)
    (h : vz.num_axes ≤ ai) : set_axis_binding vz ai a = vz := by
  unfold set_axis_binding
  rw [if_neg (by omega)]

theorem dictGet_map_proj_updateAssoc {β : Type} (g : Viz → β)
    (l : List (Nat × Viz)) (k : Nat) (f : Viz → Viz)
    (hf : ∀ vz, g (f vz) = g vz) (q : Nat) :
    (dictGet q (updateAssoc l k f)).map g = (dictGet q l).map g := by
  by_cases h : q = k
  · subst h
    rw [dictGet_updateAssoc_eq, Option.map_map]
    congr 1
    funext vz
    exact hf vz
  · rw [dictGet_updateAssoc_ne l h]

theorem clearedSticks_updateAssoc (l : List (Nat × Viz)) (k : Nat)
    (f : Viz → Viz)
    (hf : ∀ vz, clear_all_bindings (f vz) = clear_all_bindings vz) :
    clearedSticks (updateAssoc l k f) = clearedSticks l := by
  induction l with
  | nil => rfl
  | cons p rest ih =>
    obtain ⟨q, v⟩ := p
    by_cases h : q = k
    · subst h
      simp [updateAssoc, clearedSticks, hf]
    · simp only [updateAssoc, if_neg h, clearedSticks, List.map_cons]
      exact congrArg _ ih

theorem clearedSticks_idem (l : List (Nat × Viz)) :
    clearedSticks (clearedSticks l) = clearedSticks l := by
  induction l with
  | nil => rfl
  | cons p rest ih =>
    simp only [clearedSticks, List.map_cons] at ih ⊢
    rw [show clear_all_bindings (clear_all_bindings p.2) =
      clear_all_bindings p.2 from rfl]
    exact congrArg _ ih

/-! ### Preservation through one routing step and through the fold -/

theorem applyBinding_swapped (m : List (Nat × Nat)) (st : DualView)
    (b : Binding) :
    (applyBinding m st b).mapping_swapped = st.mapping_swapped := by
  unfold applyBinding
  dsimp only
  repeat' split
  all_goals rfl

theorem applyBinding_proj (m : List (Nat × Nat)) (st : DualView) (b : Binding)
    (q : Nat) :
    (dictGet q (applyBinding m st b).sticks).map vizProj =
      (dictGet q st.sticks).map vizProj := by
  unfold applyBinding
  dsimp only
  repeat' split
  all_goals
    first
    | rfl
    | exact dictGet_map_proj_updateAssoc vizProj _ _ _
        (fun vz => vizProj_set_button vz _ _) q
    | exact dictGet_map_proj_updateAssoc vizProj _ _ _
        (fun vz => vizProj_set_axis vz _ _) q

theorem applyBinding_cleared (m : List (Nat × Nat)) (st : DualView)
    (b : Binding) :
    clearedSticks (applyBinding m st b).sticks = clearedSticks st.sticks := by
  unfold applyBinding
  dsimp only
  repeat' split
  all_goals
    first
    | rfl
    | exact clearedSticks_updateAssoc _ _ _
        (fun vz => clear_of_set_button vz _ _)
    | exact clearedSticks_updateAssoc _ _ _
        (fun vz => clear_of_set_axis vz _ _)

theorem foldl_applyBinding_swapped (m : List (Nat × Nat)) (bs : List Binding)
    (st : DualView) :
    (bs.foldl (applyBinding m) st).mapping_swapped = st.mapping_swapped := by
  induction bs generalizing st with
  | nil => rfl
  | cons b bs ih => rw [List.foldl_cons, ih, applyBinding_swapped]

theorem foldl_applyBinding_proj (m : List (Nat × Nat)) (bs : List Binding)
    (st : DualView) (q : Nat) :
    (dictGet q (bs.foldl (applyBinding m) st).sticks).map vizProj =
      (dictGet q st.sticks).map vizProj := by
  induction bs generalizing st with
  | nil => rfl
  | cons b bs ih => rw [List.foldl_cons, ih, applyBinding_proj]

theorem foldl_applyBinding_cleared (m : List (Nat × Nat)) (bs : List Binding)
    (st : DualView) :
    clearedSticks (bs.foldl (applyBinding m) st).sticks =
      clearedSticks st.sticks := by
  induction bs generalizing st with
  | nil => rfl
  | cons b bs ih => rw [List.foldl_cons, ih, applyBinding_cleared]

theorem update_bindings_def (v : DualView) (bs : List Binding) :
    update_bindings v bs =
      bs.foldl
        (applyBinding
          (scToPygameMap (clearedSticks v.sticks) v.mapping_swapped))
        ⟨clearedSticks v.sticks, v.mapping_swapped⟩ := rfl


/-- A two-device view with pygame ids 0 and 2 (id 1 filtered out), as in
the spec's end-to-end scenario. -/
def demoView : DualView :=
  ⟨[(0, mkViz "VKB Gladiator Left" 0 16 6),
    (2, mkViz "VKB Gladiator Right" 2 16 6)], false⟩

/-- C7: toggling the swap flag twice restores the view state, and with it
the slot resolver's map and the routing of any record list. -/
theorem swap_toggle_involutive :
    ∀ v : DualView,
      swap_joystick_mapping (swap_joystick_mapping v) = v ∧
      scToPygameMap (swap_joystick_mapping (swap_joystick_mapping v)).sticks
          (swap_joystick_mapping (swap_joystick_mapping v)).mapping_swapped =
        scToPygameMap v.sticks v.mapping_swapped ∧
      ∀ bs : List Binding,
        update_bindings (swap_joystick_mapping (swap_joystick_mapping v)) bs =
          update_bindings v bs := by
  intro v
  have h : swap_joystick_mapping (swap_joystick_mapping v) = v := by
    simp [swap_joystick_mapping]
  exact ⟨h, by rw [h], fun bs => by rw [h]⟩

/-- C8: the router rebuilds its output from scratch: the result of
`update_bindings` does not depend on any previously routed state, so
routing twice with identical inputs yields the identical output. -/
theorem route_rebuild_idempotent :
    (∀ (v : DualView) (bs : List Binding),
        update_bindings (update_bindings v bs) bs = update_bindings v bs) ∧
    (∀ (v : DualView) (bs1 bs2 : List Binding),
        update_bindings (update_bindings v bs1) bs2 =
          update_bindings v bs2) := by
  have hsw : ∀ (v : DualView) (bs : List Binding),
      (update_bindings v bs).mapping_swapped = v.mapping_swapped := by
    intro v bs
    rw [update_bindings_def, foldl_applyBinding_swapped]
  have hcl : ∀ (v : DualView) (bs : List Binding),
      clearedSticks (update_bindings v bs).sticks = clearedSticks v.sticks := by
    intro v bs
    rw [update_bindings_def, foldl_applyBinding_cleared]
    exact clearedSticks_idem v.sticks
  have key : ∀ (v : DualView) (bs1 bs2 : List Binding),
      update_bindings (update_bindings v bs1) bs2 = update_bindings v bs2 := by
    intro v bs1 bs2
    rw [update_bindings_def (update_bindings v bs1) bs2,
      update_bindings_def v bs2, hsw, hcl]
  exact ⟨fun v bs => key v bs bs, key⟩

/-! ### Dispatch equations for one routing step -/

theorem applyBinding_skip {m : List (Nat × Nat)} {st : DualView} {b : Binding}
    (h : talliedSlot m st.sticks b = none) : applyBinding m st b = st := by
  unfold applyBinding
  dsimp only
  unfold talliedSlot at h
  cases hsc : (parse_input_string b.input).sc_js_number with
  | none => rfl
  | some sc =>
    rw [hsc] at h
    dsimp only at h ⊢
    cases hpid : dictGet sc m with
    | none => rfl
    | some pid =>
      rw [hpid] at h
      dsimp only at h ⊢
      cases hvz : dictGet pid st.sticks with
      | none => rfl
      | some vz =>
        rw [hvz] at h
        dsimp only at h
        exact Option.noConfusion h

theorem applyBinding_button {m : List (Nat × Nat)} {st : DualView}
    {b : Binding} {sc pid bn : Nat} {vz : Viz}
    (hsc : (parse_input_string b.input).sc_js_number = some sc)
    (hpid : dictGet sc m = some pid)
    (hvz : dictGet pid st.sticks = some vz)
    (hbn : (parse_input_string b.input).button = some bn) :
    applyBinding m st b =
      { st with
        sticks :=
          updateAssoc st.sticks pid fun vz0 =>
            set_button_binding vz0 bn b.action } := by
  unfold applyBinding
  dsimp only
  rw [hsc]
  dsimp only
  rw [hpid]
  dsimp only
  rw [hvz]
  dsimp only
  rw [hbn]

theorem applyBinding_axis {m : List (Nat × Nat)} {st : DualView}
    {b : Binding} {sc pid ai : Nat} {vz : Viz} {ax : String}
    (hsc : (parse_input_string b.input).sc_js_number = some sc)
    (hpid : dictGet sc m = some pid)
    (hvz : dictGet pid st.sticks = some vz)
    (hbn : (parse_input_string b.input).button = none)
    (hax : (parse_input_string b.input).axis = some ax)
    (hai : axis_map ax = some ai) :
    applyBinding m st b =
      { st with
        sticks :=
          updateAssoc st.sticks pid fun vz0 =>
            set_axis_binding vz0 ai b.action } := by
  unfold applyBinding
  dsimp only
  rw [hsc]
  dsimp only
  rw [hpid]
  dsimp only
  rw [hvz]
  dsimp only
  rw [hbn]
  dsimp only
  rw [hax]
  dsimp only
  rw [hai]

theorem applyBinding_noctl {m : List (Nat × Nat)} {st : DualView}
    {b : Binding}
    (hbn : (parse_input_string b.input).button = none)
    (hax : (parse_input_string b.input).axis = none) :
    applyBinding m st b = st := by
  unfold applyBinding
  dsimp only
  cases hsc : (parse_input_string b.input).sc_js_number with
  | none => rfl
  | some sc =>
    dsimp only
    cases hpid : dictGet sc m with
    | none => rfl
    | some pid =>
      dsimp only
      cases hvz : dictGet pid st.sticks with
      | none => rfl
      | some vz =>
        dsimp only
        rw [hbn]
        dsimp only
        rw [hax]

/-- C3 amended: the parser may populate the button and axis fields of one
token simultaneously (see the counterexample), but the router treats every
record as at most one kind of control: one routing step leaves either all
axis bindings or all button bindings unchanged, and whenever a button
ordinal was parsed the axis bindings are untouched (the button path takes
precedence over the axis path). -/
theorem router_control_exclusivity :
    (∀ (m : List (Nat × Nat)) (st : DualView) (b : Binding),
        (∀ q : Nat, (dictGet q (applyBinding m st b).sticks).map Viz.axes =
            (dictGet q st.sticks).map Viz.axes) ∨
        (∀ q : Nat, (dictGet q (applyBinding m st b).sticks).map Viz.buttons =
            (dictGet q st.sticks).map Viz.buttons)) ∧
    (∀ (m : List (Nat × Nat)) (st : DualView) (b : Binding),
        (parse_input_string b.input).button.isSome = true →
        ∀ q : Nat, (dictGet q (applyBinding m st b).sticks).map Viz.axes =
          (dictGet q st.sticks).map Viz.axes) := by
  have main : ∀ (m : List (Nat × Nat)) (st : DualView) (b : Binding),
      ((parse_input_string b.input).button.isSome = true →
        ∀ q : Nat, (dictGet q (applyBinding m st b).sticks).map Viz.axes =
          (dictGet q st.sticks).map Viz.axes) ∧
      ((∀ q : Nat, (dictGet q (applyBinding m st b).sticks).map Viz.axes =
          (dictGet q st.sticks).map Viz.axes) ∨
        (∀ q : Nat, (dictGet q (applyBinding m st b).sticks).map Viz.buttons =
          (dictGet q st.sticks).map Viz.buttons)) := by
    intro m st b
    cases htal : talliedSlot m st.sticks b with
    | none =>
      rw [applyBinding_skip htal]
      exact ⟨fun _ q => rfl, Or.inl fun q => rfl⟩
    | some sc =>
      unfold talliedSlot at htal
      cases hsc : (parse_input_string b.input).sc_js_number with
      | none => rw [hsc] at htal; exact Option.noConfusion htal
      | some sc' =>
        rw [hsc] at htal
        dsimp only at htal
        cases hpid : dictGet sc' m with
        | none => rw [hpid] at htal; exact Option.noConfusion htal
        | some pid =>
          rw [hpid] at htal
          dsimp only at htal
          cases hvz : dictGet pid st.sticks with
          | none => rw [hvz] at htal; exact Option.noConfusion htal
          | some vz =>
            cases hbn : (parse_input_string b.input).button with
            | some bn =>
              rw [applyBinding_button hsc hpid hvz hbn]
              have haxes : ∀ q : Nat,
                  (dictGet q (updateAssoc st.sticks pid
                    fun vz0 => set_button_binding vz0 bn b.action)).map
                      Viz.axes = (dictGet q st.sticks).map Viz.axes :=
                fun q => dictGet_map_proj_updateAssoc Viz.axes _ _ _
                  (fun vz0 => set_button_binding_axes vz0 bn b.action) q
              exact ⟨fun _ => haxes, Or.inl haxes⟩
            | none =>
              cases hax : (parse_input_string b.input).axis with
              | none =>
                rw [applyBinding_noctl hbn hax]
                exact ⟨fun _ q => rfl, Or.inl fun q => rfl⟩
              | some ax =>
                cases hai : axis_map ax with
                | none =>
                  refine ⟨fun hsome => ?_, ?_⟩
                  · exact Bool.noConfusion hsome
                  · left
                    intro q
                    rw [show applyBinding m st b = st from ?_]
                    · unfold applyBinding
                      dsimp only
                      rw [hsc]
                      dsimp only
                      rw [hpid]
                      dsimp only
                      rw [hvz]
                      dsimp only
                      rw [hbn]
                      dsimp only
                      rw [hax]
                      dsimp only
                      rw [hai]
                | some ai =>
                  rw [applyBinding_axis hsc hpid hvz hbn hax hai]
                  refine ⟨fun hsome => ?_, ?_⟩
                  · exact Bool.noConfusion hsome
                  · right
                    intro q
                    exact dictGet_map_proj_updateAssoc Viz.buttons _ _ _
                      (fun vz0 => set_axis_binding_buttons vz0 ai b.action) q
  exact ⟨fun m st b => (main m st b).2, fun m st b => (main m st b).1⟩

/-- C3 witness: a routing step on the double-field token
`"js1_button2x"` leaves the axis bindings of device 0 unchanged. -/
theorem router_control_exclusivity_witness :
    (parse_input_string "js1_button2x").button.isSome = true ∧
    (dictGet 0 (applyBinding
        (scToPygameMap (clearedSticks demoView.sticks) false) demoView
        ⟨"v_fire", "js1_button2x"⟩).sticks).map Viz.axes =
      (dictGet 0 demoView.sticks).map Viz.axes := by
  exact ⟨by decide, router_control_exclusivity.2 _ demoView
    ⟨"v_fire", "js1_button2x"⟩ (by decide) 0⟩


/-! ### C4 and C10: dropped records -/

theorem update_bindings_insert_noop {v : DualView} {pre post : List Binding}
    {b : Binding}
    (h : applyBinding
          (scToPygameMap (clearedSticks v.sticks) v.mapping_swapped)
          (pre.foldl
            (applyBinding
              (scToPygameMap (clearedSticks v.sticks) v.mapping_swapped))
            ⟨clearedSticks v.sticks, v.mapping_swapped⟩) b =
        pre.foldl
          (applyBinding
            (scToPygameMap (clearedSticks v.sticks) v.mapping_swapped))
          ⟨clearedSticks v.sticks, v.mapping_swapped⟩) :
    update_bindings v (pre ++ b :: post) = update_bindings v (pre ++ post) := by
  rw [update_bindings_def, update_bindings_def, List.foldl_append,
    List.foldl_append, List.foldl_cons, h]

theorem foldl_dictGet_none {m : List (Nat × Nat)} {bs : List Binding}
    {st : DualView} {pid : Nat} (h : dictGet pid st.sticks = none) :
    dictGet pid (bs.foldl (applyBinding m) st).sticks = none := by
  have hp := foldl_applyBinding_proj m bs st pid
  rw [h] at hp
  exact Option.map_eq_none'.mp hp

theorem foldl_dictGet_some {m : List (Nat × Nat)} {bs : List Binding}
    {st : DualView} {pid : Nat} {vz : Viz}
    (hvz : dictGet pid (bs.foldl (applyBinding m) st).sticks = some vz) :
    ∃ vz0, dictGet pid st.sticks = some vz0 ∧ vizProj vz0 = vizProj vz := by
  have hp := foldl_applyBinding_proj m bs st pid
  rw [hvz, Option.map_some'] at hp
  cases hvz0 : dictGet pid st.sticks with
  | none => rw [hvz0] at hp; exact Option.noConfusion hp
  | some vz0 =>
    rw [hvz0, Option.map_some'] at hp
    injection hp with hp
    exact ⟨vz0, rfl, hp.symm⟩

theorem routed_lookup_shape {v : DualView} {m : List (Nat × Nat)}
    {bs : List Binding} {pid : Nat} {vz : Viz}
    (hvz : dictGet pid (bs.foldl (applyBinding m)
        (⟨clearedSticks v.sticks, v.mapping_swapped⟩ : DualView)).sticks =
      some vz) :
    ∃ vz0, dictGet pid v.sticks = some vz0 ∧ vizProj vz0 = vizProj vz := by
  rcases foldl_dictGet_some hvz with ⟨vz1, hvz1, hproj⟩
  dsimp only at hvz1
  rw [dictGet_clearedSticks] at hvz1
  cases hvz0 : dictGet pid v.sticks with
  | none => rw [hvz0] at hvz1; exact Option.noConfusion hvz1
  | some vz0 =>
    rw [hvz0, Option.map_some'] at hvz1
    injection hvz1 with hvz1
    refine ⟨vz0, rfl, ?_⟩
    rw [show vizProj vz0 = vizProj (clear_all_bindings vz0) from rfl, hvz1]
    exact hproj

/-- The source's skip conditions for one record, relative to a view: slot
absent from the token, slot not in the resolver map, mapped device without
a visualization, or no recognizable control in the token. -/
def unroutableB (v : DualView) (b : Binding) : Bool :=
  match (parse_input_string b.input).sc_js_number with
  | none => true
  | some sc =>
    match dictGet sc
        (scToPygameMap (clearedSticks v.sticks) v.mapping_swapped) with
    | none => true
    | some pid =>
      match dictGet pid (clearedSticks v.sticks) with
      | none => true
      | some _ =>
        (parse_input_string b.input).button.isNone &&
          (parse_input_string b.input).axis.isNone

/-- C4 counterexample: the routing pass reports no unroutable count to the
caller.  Routing a batch containing the spec's own unroutable example
(`js3` with two live devices) produces an output — widget state and the
`bindings_per_device` summary, the only aggregate the pass computes — that
is identical to routing the batch without it, so no component of the
result records the unroutable record. -/
theorem route_no_unroutable_count_counterexample :
    update_bindings demoView
        [⟨"v_fire", "js1_button1"⟩, ⟨"v_weapon", "js3_button1"⟩] =
      update_bindings demoView [⟨"v_fire", "js1_button1"⟩] ∧
    bindings_per_device demoView
        [⟨"v_fire", "js1_button1"⟩, ⟨"v_weapon", "js3_button1"⟩] =
      bindings_per_device demoView [⟨"v_fire", "js1_button1"⟩] := by
  exact ⟨rfl, by decide⟩

/-- C4 amended: the router drops every unroutable record without affecting
the routing of the remaining records, and never fails: an empty record
sequence yields the cleared state and an empty device map yields an empty
result; the only report of an unroutable record is a console warning, not
a count returned to the caller. -/
theorem route_drops_unroutable :
    (∀ (v : DualView) (pre post : List Binding) (b : Binding),
        unroutableB v b = true →
        update_bindings v (pre ++ b :: post) =
          update_bindings v (pre ++ post)) ∧
    (∀ (sw : Bool) (bs : List Binding),
        update_bindings ⟨[], sw⟩ bs = ⟨[], sw⟩) ∧
    (∀ v : DualView,
        update_bindings v [] = { v with sticks := clearedSticks v.sticks }) := by
  refine ⟨?_, ?_, fun v => rfl⟩
  · intro v pre post b hb
    apply update_bindings_insert_noop
    unfold unroutableB at hb
    cases hsc : (parse_input_string b.input).sc_js_number with
    | none => exact applyBinding_skip (by unfold talliedSlot; rw [hsc])
    | some sc =>
      rw [hsc] at hb
      dsimp only at hb
      cases hpid : dictGet sc
          (scToPygameMap (clearedSticks v.sticks) v.mapping_swapped) with
      | none =>
        apply applyBinding_skip
        unfold talliedSlot
        rw [hsc]
        dsimp only
        rw [hpid]
      | some pid =>
        rw [hpid] at hb
        dsimp only at hb
        cases hvz0 : dictGet pid (clearedSticks v.sticks) with
        | none =>
          have hnone : dictGet pid
              ((pre.foldl
                (applyBinding
                  (scToPygameMap (clearedSticks v.sticks) v.mapping_swapped))
                ⟨clearedSticks v.sticks, v.mapping_swapped⟩ :
                  DualView)).sticks = none :=
            foldl_dictGet_none hvz0
          apply applyBinding_skip
          unfold talliedSlot
          rw [hsc]
          dsimp only
          rw [hpid]
          dsimp only
          rw [hnone]
        | some vz =>
          rw [hvz0] at hb
          dsimp only at hb
          rw [Bool.and_eq_true, Option.isNone_iff_eq_none,
            Option.isNone_iff_eq_none] at hb
          exact applyBinding_noctl hb.1 hb.2
  · intro sw bs
    rw [update_bindings_def]
    have hav : availIds ([] : List (Nat × Viz)) sw = [] := by
      unfold availIds
      rw [if_neg]
      · rfl
      · rintro ⟨h1, h2⟩
        simp at h2
    have hm : scToPygameMap ([] : List (Nat × Viz)) sw = [] := by
      unfold scToPygameMap
      rw [hav]
      rfl
    have happ : ∀ (st : DualView) (b : Binding), applyBinding [] st b = st := by
      intro st b
      apply applyBinding_skip
      unfold talliedSlot
      cases hsc : (parse_input_string b.input).sc_js_number with
      | none => rfl
      | some sc => rfl
    have hfold : ∀ (l : List Binding) (st : DualView),
        l.foldl (applyBinding []) st = st := by
      intro l
      induction l with
      | nil => intro st; rfl
      | cons b l ih =>
        intro st
        rw [List.foldl_cons, happ, ih]
    show bs.foldl (applyBinding (scToPygameMap [] sw)) ⟨[], sw⟩ = ⟨[], sw⟩
    rw [hm]
    exact hfold bs ⟨[], sw⟩

/-- C4 witness: the drop property applied to an unroutable `js9` record
inserted in front of a routable one, on the two-device view. -/
theorem route_drops_unroutable_witness :
    update_bindings demoView
        [⟨"v_missile", "js9_button2"⟩, ⟨"v_fire", "js1_button1"⟩] =
      update_bindings demoView [⟨"v_fire", "js1_button1"⟩] := by
  exact route_drops_unroutable.1 demoView [] [⟨"v_fire", "js1_button1"⟩]
    ⟨"v_missile", "js9_button2"⟩ (by decide)


/-- C10: a binding that parses and resolves to a live device but names a
button beyond that device's button count, or an axis whose index is at or
beyond its axis count, is silently dropped: the routed result is the one
for the batch without it (no error, no count, other records unaffected). -/
theorem out_of_range_bindings_silently_dropped :
    (∀ (v : DualView) (pre post : List Binding) (b : Binding)
        (sc pid bn : Nat),
        (parse_input_string b.input).sc_js_number = some sc →
        dictGet sc
            (scToPygameMap (clearedSticks v.sticks) v.mapping_swapped) =
          some pid →
        (parse_input_string b.input).button = some bn →
        (dictGet pid v.sticks).all
            (fun vz => decide (vz.num_buttons < bn)) = true →
        update_bindings v (pre ++ b :: post) =
          update_bindings v (pre ++ post)) ∧
    (∀ (v : DualView) (pre post : List Binding) (b : Binding)
        (sc pid ai : Nat) (ax : String),
        (parse_input_string b.input).sc_js_number = some sc →
        dictGet sc
            (scToPygameMap (clearedSticks v.sticks) v.mapping_swapped) =
          some pid →
        (parse_input_string b.input).button = none →
        (parse_input_string b.input).axis = some ax →
        axis_map ax = some ai →
        (dictGet pid v.sticks).all
            (fun vz => decide (vz.num_axes ≤ ai)) = true →
        update_bindings v (pre ++ b :: post) =
          update_bindings v (pre ++ post)) := by
  constructor
  · intro v pre post b sc pid bn hsc hpid hbn hall
    apply update_bindings_insert_noop
    cases hvz : dictGet pid
        ((pre.foldl
          (applyBinding
            (scToPygameMap (clearedSticks v.sticks) v.mapping_swapped))
          ⟨clearedSticks v.sticks, v.mapping_swapped⟩ :
            DualView)).sticks with
    | none =>
      apply applyBinding_skip
      unfold talliedSlot
      rw [hsc]
      dsimp only
      rw [hpid]
      dsimp only
      rw [hvz]
    | some vz =>
      rw [applyBinding_button hsc hpid hvz hbn]
      have hupd : updateAssoc
          ((pre.foldl
            (applyBinding
              (scToPygameMap (clearedSticks v.sticks) v.mapping_swapped))
            ⟨clearedSticks v.sticks, v.mapping_swapped⟩ :
              DualView)).sticks pid
          (fun vz0 => set_button_binding vz0 bn b.action) =
          ((pre.foldl
            (applyBinding
              (scToPygameMap (clearedSticks v.sticks) v.mapping_swapped))
            ⟨clearedSticks v.sticks, v.mapping_swapped⟩ :
              DualView)).sticks := by
        apply updateAssoc_id
        intro vz' hvz'
        rw [hvz] at hvz'
        injection hvz' with hvz'
        subst hvz'
        rcases routed_lookup_shape hvz with ⟨vz0, hvz0, hproj⟩
        rw [hvz0] at hall
        have hlt : vz0.num_buttons < bn := of_decide_eq_true (by simpa using hall)
        have hfst : vz0.num_buttons = vz.num_buttons :=
          congrArg Prod.fst hproj
        exact set_button_binding_noop _ (by omega)
      rw [hupd]
  · intro v pre post b sc pid ai ax hsc hpid hbn hax hai hall
    apply update_bindings_insert_noop
    cases hvz : dictGet pid
        ((pre.foldl
          (applyBinding
            (scToPygameMap (clearedSticks v.sticks) v.mapping_swapped))
          ⟨clearedSticks v.sticks, v.mapping_swapped⟩ :
            DualView)).sticks with
    | none =>
      apply applyBinding_skip
      unfold talliedSlot
      rw [hsc]
      dsimp only
      rw [hpid]
      dsimp only
      rw [hvz]
    | some vz =>
      rw [applyBinding_axis hsc hpid hvz hbn hax hai]
      have hupd : updateAssoc
          ((pre.foldl
            (applyBinding
              (scToPygameMap (clearedSticks v.sticks) v.mapping_swapped))
            ⟨clearedSticks v.sticks, v.mapping_swapped⟩ :
              DualView)).sticks pid
          (fun vz0 => set_axis_binding vz0 ai b.action) =
          ((pre.foldl
            (applyBinding
              (scToPygameMap (clearedSticks v.sticks) v.mapping_swapped))
            ⟨clearedSticks v.sticks, v.mapping_swapped⟩ :
              DualView)).sticks := by
        apply updateAssoc_id
        intro vz' hvz'
        rw [hvz] at hvz'
        injection hvz' with hvz'
        subst hvz'
        rcases routed_lookup_shape hvz with ⟨vz0, hvz0, hproj⟩
        rw [hvz0] at hall
        have hle : vz0.num_axes ≤ ai := of_decide_eq_true (by simpa using hall)
        have hsnd : vz0.num_axes = vz.num_axes := congrArg Prod.snd hproj
        exact set_axis_binding_noop _ (by omega)
      rw [hupd]

/-- C10 witness: on a device with 16 buttons and 6 axes, a binding naming
button 40 routes to the device, fails the widget-key check and leaves the
result identical to the batch without it. -/
theorem out_of_range_bindings_silently_dropped_witness :
    update_bindings demoView
        [⟨"v_eject", "js1_button40"⟩, ⟨"v_fire", "js1_button1"⟩] =
      update_bindings demoView [⟨"v_fire", "js1_button1"⟩] := by
  exact out_of_range_bindings_silently_dropped.1 demoView []
    [⟨"v_fire", "js1_button1"⟩] ⟨"v_eject", "js1_button40"⟩ 1 0 40
    (by decide) (by decide) (by decide) (by decide)

/-- The spec's end-to-end device snapshot: ids 0 and 2 live. -/
def demoSnapshot : List DeviceInfo :=
  [⟨"VKB Gladiator EVO L", 0, 16, 6⟩, ⟨"VKB Gladiator EVO R", 2, 16, 6⟩]

/-- C9: with live ids `{0, 2}` and the swap flag false, the resolver maps
slot 1 to device 0 and slot 2 to device 2, and routing
`[("v_fire", "js1_button1"), ("v_boost", "js2_x")]` binds button 1 of
device 0 to the fire action and axis `"x"` (index 0) of device 2 to the
boost action, displayed as `"Fire"` and `"Boost"`. -/
theorem end_to_end_unswapped_routing :
    dictGet 1 (scToPygameMap
        (clearedSticks (set_joysticks ⟨[], false⟩ demoSnapshot).sticks)
        false) = some 0 ∧
    dictGet 2 (scToPygameMap
        (clearedSticks (set_joysticks ⟨[], false⟩ demoSnapshot).sticks)
        false) = some 2 ∧
    ((dictGet 0 (update_bindings (set_joysticks ⟨[], false⟩ demoSnapshot)
        [⟨"v_fire", "js1_button1"⟩, ⟨"v_boost", "js2_x"⟩]).sticks).map
      fun vz => vz.buttons 1) = some (some "Fire") ∧
    ((dictGet 2 (update_bindings (set_joysticks ⟨[], false⟩ demoSnapshot)
        [⟨"v_fire", "js1_button1"⟩, ⟨"v_boost", "js2_x"⟩]).sticks).map
      fun vz => vz.axes 0) = some "Boost" ∧
    axis_map "x" = some 0 ∧
    format_action_name "v_fire" = "Fire" ∧
    format_action_name "v_boost" = "Boost" := by
  decide


/-! ### C1: the slot resolver is a bijection onto the sorted live ids -/

theorem dictGet_slotEntries :
    ∀ (l : List Nat) (off k : Nat),
      dictGet k (slotEntries off l) =
        if off + 1 ≤ k ∧ k ≤ off + l.length then l[k - off - 1]? else none := by
  intro l
  induction l with
  | nil =>
    intro off k
    rw [if_neg (by simp; omega)]
    rfl
  | cons x t ih =>
    intro off k
    by_cases h : off + 1 = k
    · have hidx : k - off - 1 = 0 := by omega
      rw [show dictGet k (slotEntries off (x :: t)) =
          if off + 1 = k then some x else dictGet k (slotEntries (off + 1) t)
        from rfl]
      rw [if_pos h, if_pos (by simp [List.length_cons]; omega), hidx]
      exact (List.getElem?_cons_zero).symm
    · rw [show dictGet k (slotEntries off (x :: t)) =
          if off + 1 = k then some x else dictGet k (slotEntries (off + 1) t)
        from rfl]
      rw [if_neg h, ih (off + 1) k]
      by_cases h2 : off + 1 + 1 ≤ k ∧ k ≤ off + 1 + t.length
      · rw [if_pos h2, if_pos (by simp [List.length_cons]; omega)]
        have hidx : k - off - 1 = (k - (off + 1) - 1) + 1 := by omega
        rw [hidx]
        exact (List.getElem?_cons_succ).symm
      · rw [if_neg h2, if_neg (by simp [List.length_cons]; omega)]

/-- C1: for every non-empty duplicate-free state of live devices, the
resolver's map is a bijection from the logical slots `{1, .., n}` onto the
sorted live device ids — reversed when the swap flag is set and at least
two devices are live: slot `k` maps to the `(k-1)`-th element of the
(possibly reversed) sorted sequence, slots outside `{1, .., n}` are absent,
the sequence enumerates each live id exactly once in the stated order, the
map is injective and surjective onto the live ids, and slot 1 receives the
smallest live id (largest when swapped with at least two devices). -/
theorem slot_resolver_bijection (sticks : List (Nat × Viz)) (swapped : Bool)
    (hnd : (sticks.map Prod.fst).Nodup) (hne : sticks ≠ []) :
    (∀ k : Nat, 1 ≤ k → k ≤ sticks.length →
      dictGet k (scToPygameMap sticks swapped) =
        (availIds sticks swapped)[k - 1]?) ∧
    (∀ k : Nat, k = 0 ∨ sticks.length < k →
      dictGet k (scToPygameMap sticks swapped) = none) ∧
    (availIds sticks swapped).Nodup ∧
    (availIds sticks swapped).length = sticks.length ∧
    (∀ d : Nat, d ∈ availIds sticks swapped ↔ d ∈ sticks.map Prod.fst) ∧
    ((swapped = false ∨ sticks.length < 2) →
      (availIds sticks swapped).Sorted (· ≤ ·)) ∧
    (swapped = true → 2 ≤ sticks.length →
      (availIds sticks swapped).Sorted (· ≥ ·)) ∧
    (∀ k q : Nat, 1 ≤ k → k ≤ sticks.length → 1 ≤ q → q ≤ sticks.length →
      dictGet k (scToPygameMap sticks swapped) =
        dictGet q (scToPygameMap sticks swapped) → k = q) ∧
    (∀ d ∈ sticks.map Prod.fst, ∃ k : Nat, 1 ≤ k ∧ k ≤ sticks.length ∧
      dictGet k (scToPygameMap sticks swapped) = some d) ∧
    (∀ d : Nat, dictGet 1 (scToPygameMap sticks swapped) = some d →
      ((swapped = false ∨ sticks.length < 2) →
        ∀ e ∈ sticks.map Prod.fst, d ≤ e) ∧
      (swapped = true → 2 ≤ sticks.length →
        ∀ e ∈ sticks.map Prod.fst, e ≤ d)) := by
  have hlen_sort :
      (List.insertionSort (· ≤ ·) (sticks.map Prod.fst)).length =
        sticks.length := by
    rw [List.length_insertionSort, List.length_map]
  have hlenA : (availIds sticks swapped).length = sticks.length := by
    unfold availIds
    dsimp only
    split
    · rw [List.length_reverse, hlen_sort]
    · exact hlen_sort
  have hmem : ∀ d : Nat,
      d ∈ availIds sticks swapped ↔ d ∈ sticks.map Prod.fst := by
    intro d
    unfold availIds
    dsimp only
    split
    · rw [List.mem_reverse, List.mem_insertionSort]
    · rw [List.mem_insertionSort]
  have hnodA : (availIds sticks swapped).Nodup := by
    have hs : (List.insertionSort (· ≤ ·) (sticks.map Prod.fst)).Nodup :=
      ((List.perm_insertionSort _ _).nodup_iff).mpr hnd
    unfold availIds
    dsimp only
    split
    · rw [List.nodup_reverse]
      exact hs
    · exact hs
  have hmap : ∀ k : Nat, dictGet k (scToPygameMap sticks swapped) =
      if 1 ≤ k ∧ k ≤ sticks.length then (availIds sticks swapped)[k - 1]?
      else none := by
    intro k
    unfold scToPygameMap
    rw [dictGet_slotEntries (availIds sticks swapped) 0 k]
    rw [Nat.zero_add, Nat.zero_add, hlenA]
    rw [show k - 0 - 1 = k - 1 from by omega]
  have hsorted :
      (List.insertionSort (· ≤ ·) (sticks.map Prod.fst)).Sorted (· ≤ ·) :=
    List.sorted_insertionSort _ _
  have hasc : (swapped = false ∨ sticks.length < 2) →
      (availIds sticks swapped).Sorted (· ≤ ·) := by
    intro h
    unfold availIds
    dsimp only
    split
    · rename_i hcond
      rcases h with h | h
      · rw [h] at hcond
        exact absurd hcond.1 (by simp)
      · rw [hlen_sort] at hcond
        omega
    · exact hsorted
  have hdesc : swapped = true → 2 ≤ sticks.length →
      (availIds sticks swapped).Sorted (· ≥ ·) := by
    intro hsw hlen
    unfold availIds
    dsimp only
    rw [if_pos ⟨hsw, by rw [hlen_sort]; exact hlen⟩]
    exact List.pairwise_reverse.mpr hsorted
  have hone : 1 ≤ sticks.length := by
    cases hs : sticks with
    | nil => exact absurd hs hne
    | cons p rest => simp [List.length_cons]
  refine ⟨fun k h1 h2 => by rw [hmap k, if_pos ⟨h1, h2⟩],
    fun k h => by rw [hmap k, if_neg (by omega)],
    hnodA, hlenA, hmem, hasc, hdesc, ?_, ?_, ?_⟩
  · intro k q hk1 hk2 hq1 hq2 heq
    rw [hmap k, hmap q, if_pos ⟨hk1, hk2⟩, if_pos ⟨hq1, hq2⟩] at heq
    have hk : k - 1 < (availIds sticks swapped).length := by
      rw [hlenA]; omega
    have := List.getElem?_inj hk hnodA heq
    omega
  · intro d hd
    have hdA : d ∈ availIds sticks swapped := (hmem d).mpr hd
    rcases List.mem_iff_getElem?.mp hdA with ⟨n, hn⟩
    have hlt : n < (availIds sticks swapped).length := by
      rcases List.getElem?_eq_some.mp hn with ⟨h, _⟩
      exact h
    refine ⟨n + 1, by omega, by rw [hlenA] at hlt; omega, ?_⟩
    rw [hmap (n + 1), if_pos ⟨by omega, by rw [hlenA] at hlt; omega⟩]
    rw [show n + 1 - 1 = n from by omega]
    exact hn
  · intro d hd
    have h0 : (availIds sticks swapped)[0]? = some d := by
      rw [hmap 1, if_pos ⟨Nat.le_refl 1, hone⟩] at hd
      exact hd
    constructor
    · intro hcase e he
      have hs := hasc hcase
      cases havail : availIds sticks swapped with
      | nil => rw [havail] at h0; exact Option.noConfusion h0
      | cons a rest =>
        rw [havail] at h0
        have had : a = d := by
          simpa using h0
        rw [havail] at hs
        rcases List.sorted_cons.mp hs with ⟨hfirst, _⟩
        have heA : e ∈ availIds sticks swapped := (hmem e).mpr he
        rw [havail] at heA
        rcases List.mem_cons.mp heA with h | h
        · omega
        · have := hfirst e h
          omega
    · intro hsw hlen e he
      have hs := hdesc hsw hlen
      cases havail : availIds sticks swapped with
      | nil => rw [havail] at h0; exact Option.noConfusion h0
      | cons a rest =>
        rw [havail] at h0
        have had : a = d := by
          simpa using h0
        rw [havail] at hs
        rcases List.sorted_cons.mp hs with ⟨hfirst, _⟩
        have heA : e ∈ availIds sticks swapped := (hmem e).mpr he
        rw [havail] at heA
        rcases List.mem_cons.mp heA with h | h
        · omega
        · have := hfirst e h
          omega

/-- C1 witness: on the two-device view with ids 0 and 2 and the swap flag
false, the resolver maps slot 1 to device 0 and slot 2 to device 2. -/
theorem slot_resolver_bijection_witness :
    dictGet 1 (scToPygameMap demoView.sticks false) = some 0 ∧
    dictGet 2 (scToPygameMap demoView.sticks false) = some 2 := by
  have h := slot_resolver_bijection demoView.sticks false (by decide)
    (List.cons_ne_nil _ _)
  exact ⟨(h.1 1 (by decide) (by decide)).trans (by decide),
    (h.1 2 (by decide) (by decide)).trans (by decide)⟩

end StarSticks
